import Mathlib

/-!
# Verification of generate_spectrograms.py

A shallow embedding of the spectrogram-generation script: a Converter
(create_spectrogram) that turns one audio file into one image via external
collaborators (audio decoding, mel-spectrogram transform, matplotlib
rendering), and a batch Driver (main) that walks a fixed list of method
subdirectories and invokes the Converter on every discovered wav file.

External collaborator calls are modelled as an emitted call trace; their
possible failures are supplied by an outcome oracle, mirroring the
try/except structure of the source.  Console output is modelled as an
abstract list of lines; filesystem effects as lists of created directories
and, for the Converter, the content left at the destination path.
-/

namespace SpectroGen

/-- Default figure size in inches, from the source signature
figsize=(5, 2.78) of create_spectrogram (exact rationals). -/
def figsizeDefault : ℚ × ℚ := (5, 278/100)

/-- Default output resolution in dots per inch, from dpi=72. -/
def dpiDefault : ℚ := 72

/-- What the save step has left at the destination path:
a complete image, or a truncated (partially written) file. -/
inductive FileData
  | complete
  | truncated
deriving DecidableEq

/-- A node of a method input directory: a plain file or a nested
subdirectory with its own entries. -/
inductive FNode
  | file (name : String)
  | dir (name : String) (children : List FNode)

/-- The entry's own name (last path component). -/
def FNode.name : FNode → String
  | .file n => n
  | .dir n _ => n

/-- The character sequence of the glob suffix ".wav" (lowercase, as in the
literal pattern of method_dir.glob("*.wav")). -/
def wavSuffix : List Char := ['.', 'w', 'a', 'v']

/-- Whether an entry name matches the glob pattern "*.wav":
the name ends with the literal, case-sensitive suffix ".wav". -/
def matchesWavGlob (name : String) : Bool :=
  wavSuffix.isSuffixOf name.data

/-- Path.glob("*.wav") on a directory listing: non-recursive, returns names
of the immediate entries matching the pattern; children of nested
subdirectories are never inspected. -/
def globWav (entries : List FNode) : List String :=
  entries.filterMap fun e => if matchesWavGlob e.name then some e.name else none

/-- The input filesystem visible to the Driver: whether the input root
exists, and the immediate subdirectories of the root with their entries. -/
structure InputFS where
  rootExists : Bool
  subdirs : List (String × List FNode)

/-- Outcome of one Converter invocation, supplied by an oracle: success, or
a failure raised by one of the collaborator calls inside the try block.
A failing save leaves a residue at the destination, determined by how far
the external direct write progressed before raising. -/
inductive ConvOutcome
  | ok
  | failLoad (msg : String)
  | failMel (msg : String)
  | failDb (msg : String)
  | failRender (msg : String)
  | failSave (residue : Option FileData) (msg : String)
deriving DecidableEq

/-- The error message carried by a failure outcome. -/
def ConvOutcome.msg : ConvOutcome → String
  | .ok => ""
  | .failLoad m => m
  | .failMel m => m
  | .failDb m => m
  | .failRender m => m
  | .failSave _ m => m

/-- A collaborator call made by the Converter, with the parameters the
source passes. -/
inductive LibCall
  | load (path : String) (sr : Option Nat)
  | melspectrogram (n_mels : Nat) (fmax : Nat)
  | powerToDbRefMax
  | figure (figsize : ℚ × ℚ) (dpi : ℚ)
  | specshow (fmax : Nat)
  | savefig (path : String) (dpi : ℚ)
deriving DecidableEq

/-- A console line emitted by the script. -/
inductive Line
  | generating
  | outputSize (w h : Nat)
  | dashes
  | errorRootMissing
  | warnMissing (method : String)
  | methodHeader (method : String) (count : Nat)
  | convOk (outputPath : String)
  | convErr (audioPath : String) (err : String)
  | processingComplete
  | footer (processed total : Nat)
  | savedIn (dir : String)
deriving DecidableEq

/-- Effect of one Converter invocation: the collaborator calls made before
returning, the content left at the destination path, and the console lines
printed. -/
structure ConvEffect where
  calls : List LibCall
  written : Option FileData
  lines : List Line
deriving DecidableEq

/-- create_spectrogram(audio_path, output_path, figsize, dpi): runs the
try block - load (sr=None, native rate), melspectrogram (n_mels=128,
fmax=8000), power_to_db (ref=np.max), figure/specshow rendering, savefig -
and on success prints one checkmark line; any exception is caught by the
except clause, which prints one error line naming the file and the error
and does nothing else (no cleanup of the destination). -/
def create_spectrogram (audio_path output_path : String) (oc : ConvOutcome)
    (figsize : ℚ × ℚ := figsizeDefault) (dpi : ℚ := dpiDefault) : ConvEffect :=
  match oc with
  | .failLoad m =>
      ⟨[.load audio_path none], none, [.convErr audio_path m]⟩
  | .failMel m =>
      ⟨[.load audio_path none, .melspectrogram 128 8000], none,
        [.convErr audio_path m]⟩
  | .failDb m =>
      ⟨[.load audio_path none, .melspectrogram 128 8000, .powerToDbRefMax],
        none, [.convErr audio_path m]⟩
  | .failRender m =>
      ⟨[.load audio_path none, .melspectrogram 128 8000, .powerToDbRefMax,
          .figure figsize dpi, .specshow 8000], none, [.convErr audio_path m]⟩
  | .failSave res m =>
      ⟨[.load audio_path none, .melspectrogram 128 8000, .powerToDbRefMax,
          .figure figsize dpi, .specshow 8000, .savefig output_path dpi],
        res, [.convErr audio_path m]⟩
  | .ok =>
      ⟨[.load audio_path none, .melspectrogram 128 8000, .powerToDbRefMax,
          .figure figsize dpi, .specshow 8000, .savefig output_path dpi],
        some .complete, [.convOk output_path]⟩

/-- The fixed input root directory name. -/
def input_dir : String := "input_wsj0c3"

/-- The fixed output root directory name. -/
def output_dir : String := "spectrograms"

/-- The fixed list of method subdirectories the Driver processes, in
source order. -/
def methods : List String :=
  ["clean", "noisy", "sgmsep", "vpidm", "flowse",
   "vpvid_sde", "vpvid_sdec", "vpvid_ode"]

/-- Accumulated result of a Driver run: directories created, console lines,
the two running counters, and the (method, filename) conversions invoked. -/
structure RunResult where
  createdDirs : List String
  lines : List Line
  total_files : Nat
  processed_files : Nat
  attempts : List (String × String)
deriving DecidableEq

/-- Full input path of a wav file of a method directory. -/
def convInPath (m w : String) : String :=
  input_dir ++ "/" ++ m ++ "/" ++ w

/-- Output path: mirrored method subdirectory, stem of the wav name with
the extension replaced by ".png" (the stem of a name ending in ".wav"
drops those four characters). -/
def convOutPath (m w : String) : String :=
  output_dir ++ "/" ++ m ++ "/" ++ ⟨w.data.take (w.data.length - 4)⟩ ++ ".png"

/-- The inner per-file loop body: invoke the Converter (with the source's
default figsize/dpi), append its console lines, count the file as
processed, and record the attempt.  The counter increments and the loop
continues whether or not the Converter failed. -/
def convStep (orc : String → ConvOutcome) (m : String)
    (acc : RunResult) (w : String) : RunResult :=
  let eff := create_spectrogram (convInPath m w) (convOutPath m w)
    (orc (convInPath m w))
  { acc with
    lines := acc.lines ++ eff.lines,
    processed_files := acc.processed_files + 1,
    attempts := acc.attempts ++ [(m, w)] }

/-- The per-method loop body: a missing method subdirectory gets one
warning and is skipped; a present one gets a mirrored output directory,
its wav files are globbed and counted, and each is converted in turn. -/
def processMethod (fs : InputFS) (orc : String → ConvOutcome)
    (acc : RunResult) (m : String) : RunResult :=
  match fs.subdirs.lookup m with
  | none => { acc with lines := acc.lines ++ [.warnMissing m] }
  | some entries =>
      let wavs := globWav entries
      let acc1 : RunResult :=
        { acc with
          createdDirs := acc.createdDirs ++ [output_dir ++ "/" ++ m],
          total_files := acc.total_files + wavs.length,
          lines := acc.lines ++ [.methodHeader m wavs.length] }
      wavs.foldl (convStep orc m) acc1

/-- main(): if the input root is missing, print one error line and return
normally with no work done (no directory created, no file processed);
otherwise create the output root, fold the method list, and print the
summary footer reporting processed/total.  Total function: every run
returns normally. -/
def main (fs : InputFS) (orc : String → ConvOutcome) : RunResult :=
  if fs.rootExists then
    let r0 : RunResult :=
      { createdDirs := [output_dir],
        lines := [.generating, .outputSize 360 200, .dashes],
        total_files := 0, processed_files := 0, attempts := [] }
    let r := methods.foldl (processMethod fs orc) r0
    { r with
      lines := r.lines ++
        [.dashes, .processingComplete,
         .footer r.processed_files r.total_files, .savedIn output_dir] }
  else
    { createdDirs := [], lines := [.errorRootMissing],
      total_files := 0, processed_files := 0, attempts := [] }

/-- The wav files discovered in one method subdirectory (empty when the
subdirectory is absent). -/
def methodWavs (fs : InputFS) (m : String) : List String :=
  match fs.subdirs.lookup m with
  | none => []
  | some es => globWav es

/-- Total number of wav files discovered across the method list. -/
def discoveredCount (fs : InputFS) : Nat :=
  (methods.map fun m => (methodWavs fs m).length).sum

/-- All (method, filename) pairs the Driver attempts, in order. -/
def allAttempts (fs : InputFS) : List (String × String) :=
  methods.flatMap fun m => (methodWavs fs m).map fun w => (m, w)

/-- The one console line an invocation of the Converter prints for file w
of method m. -/
def convLine (orc : String → ConvOutcome) (m w : String) : Line :=
  match orc (convInPath m w) with
  | .ok => .convOk (convOutPath m w)
  | oc => .convErr (convInPath m w) oc.msg

/-- Console lines contributed by one method of the list. -/
def methodLines (fs : InputFS) (orc : String → ConvOutcome)
    (m : String) : List Line :=
  match fs.subdirs.lookup m with
  | none => [.warnMissing m]
  | some es =>
      .methodHeader m (globWav es).length ::
        (globWav es).map (convLine orc m)

/-- Output directories created for one method of the list. -/
def createdFor (fs : InputFS) (m : String) : List String :=
  match fs.subdirs.lookup m with
  | none => []
  | some _ => [output_dir ++ "/" ++ m]

/-- The one line the Converter prints for a given outcome: a checkmark line
with the output path on success, an error line with the input path and the
error otherwise. -/
def convResultLine (a b : String) : ConvOutcome → Line
  | .ok => .convOk b
  | oc => .convErr a oc.msg

/-- Maximum of a list of reals, the behaviour of np.max on a nonempty
array (the value on [] is an unused junk value). -/
noncomputable def listMax : List ℝ → ℝ
  | [] => 0
  | [x] => x
  | x :: y :: xs => max x (listMax (y :: xs))

/-- np.max over a whole 2-D matrix: maximum of all entries. -/
noncomputable def matMax (S : List (List ℝ)) : ℝ :=
  listMax S.flatten

/-- The pointwise decibel conversion with respect to a reference value:
10·log10(x) − 10·log10(ref). -/
noncomputable def dbFun (ref x : ℝ) : ℝ :=
  10 * Real.logb 10 x - 10 * Real.logb 10 ref

/-- Modelled from the spec: the external decibel-conversion facility
(the power_to_db collaborator invoked with ref=np.max, whose source is not
part of this repository) — "Convert power values to a decibel scale
referenced to the maximum value in the matrix".  Each power value x of the
matrix becomes 10·log10(x) − 10·log10(max), in exact real arithmetic. -/
noncomputable def power_to_db (S : List (List ℝ)) : List (List ℝ) :=
  S.map (List.map (dbFun (matMax S)))

/-- Entrywise scaling of a power matrix by a factor c.  Scaling the input
waveform by a positive factor k scales the (quadratically homogeneous)
mel power spectrogram entrywise by c = k². -/
noncomputable def scaleMatrix (c : ℝ) (S : List (List ℝ)) : List (List ℝ) :=
  S.map (List.map fun x => c * x)

/-! ## Characterization lemmas for the Converter and the Driver -/

theorem create_spectrogram_lines_eq (a b : String) (oc : ConvOutcome)
    (fig : ℚ × ℚ) (d : ℚ) :
    (create_spectrogram a b oc fig d).lines = [convResultLine a b oc] := by
  cases oc <;> rfl

theorem convLine_eq (orc : String → ConvOutcome) (m w : String) :
    convLine orc m w =
      convResultLine (convInPath m w) (convOutPath m w) (orc (convInPath m w)) := by
  unfold convLine convResultLine
  cases orc (convInPath m w) <;> rfl

theorem convStep_eq (orc : String → ConvOutcome) (m : String)
    (acc : RunResult) (w : String) :
    convStep orc m acc w =
      { acc with
        lines := acc.lines ++ [convLine orc m w],
        processed_files := acc.processed_files + 1,
        attempts := acc.attempts ++ [(m, w)] } := by
  unfold convStep
  simp [create_spectrogram_lines_eq, convLine_eq]

theorem foldl_convStep (orc : String → ConvOutcome) (m : String)
    (wavs : List String) (acc : RunResult) :
    wavs.foldl (convStep orc m) acc =
      { acc with
        lines := acc.lines ++ wavs.map (convLine orc m),
        processed_files := acc.processed_files + wavs.length,
        attempts := acc.attempts ++ wavs.map fun w => (m, w) } := by
  induction wavs generalizing acc with
  | nil => simp
  | cons w ws ih =>
      rw [List.foldl_cons, convStep_eq, ih]
      simp [List.append_assoc]
      omega

theorem processMethod_eq (fs : InputFS) (orc : String → ConvOutcome)
    (acc : RunResult) (m : String) :
    processMethod fs orc acc m =
      { acc with
        createdDirs := acc.createdDirs ++ createdFor fs m,
        lines := acc.lines ++ methodLines fs orc m,
        total_files := acc.total_files + (methodWavs fs m).length,
        processed_files := acc.processed_files + (methodWavs fs m).length,
        attempts := acc.attempts ++ (methodWavs fs m).map fun w => (m, w) } := by
  unfold processMethod createdFor methodLines methodWavs
  cases h : fs.subdirs.lookup m with
  | none => simp
  | some es =>
      simp [foldl_convStep, List.append_assoc]

theorem foldl_processMethod (fs : InputFS) (orc : String → ConvOutcome)
    (ms : List String) (acc : RunResult) :
    ms.foldl (processMethod fs orc) acc =
      { createdDirs := acc.createdDirs ++ ms.flatMap (createdFor fs),
        lines := acc.lines ++ ms.flatMap (methodLines fs orc),
        total_files :=
          acc.total_files + (ms.map fun m => (methodWavs fs m).length).sum,
        processed_files :=
          acc.processed_files + (ms.map fun m => (methodWavs fs m).length).sum,
        attempts :=
          acc.attempts ++ ms.flatMap fun m => (methodWavs fs m).map fun w => (m, w) } := by
  induction ms generalizing acc with
  | nil => simp
  | cons m ms ih =>
      rw [List.foldl_cons, processMethod_eq, ih]
      simp [List.append_assoc]
      omega

theorem main_spec (fs : InputFS) (orc : String → ConvOutcome)
    (h : fs.rootExists = true) :
    main fs orc =
      { createdDirs := output_dir :: methods.flatMap (createdFor fs),
        lines :=
          [.generating, .outputSize 360 200, .dashes] ++
            methods.flatMap (methodLines fs orc) ++
            [.dashes, .processingComplete,
             .footer (discoveredCount fs) (discoveredCount fs),
             .savedIn output_dir],
        total_files := discoveredCount fs,
        processed_files := discoveredCount fs,
        attempts := allAttempts fs } := by
  unfold main
  rw [h]
  simp [foldl_processMethod, discoveredCount, allAttempts, List.append_assoc]

/-! ## Facts about listMax -/

theorem listMax_mem (l : List ℝ) (h : l ≠ []) : listMax l ∈ l := by
  induction l with
  | nil => exact absurd rfl h
  | cons x xs ih =>
      cases xs with
      | nil => simp [listMax]
      | cons y ys =>
          have h' := ih (by simp)
          simp only [listMax]
          rcases le_total x (listMax (y :: ys)) with hle | hle
          · rw [max_eq_right hle]
            exact List.mem_cons_of_mem _ h'
          · rw [max_eq_left hle]
            exact List.mem_cons_self _ _

theorem le_listMax (l : List ℝ) (x : ℝ) (hx : x ∈ l) : x ≤ listMax l := by
  induction l with
  | nil => cases hx
  | cons a xs ih =>
      cases xs with
      | nil =>
          rw [List.mem_singleton] at hx
          simp [listMax, hx]
      | cons y ys =>
          simp only [listMax]
          rcases List.mem_cons.mp hx with rfl | hmem
          · exact le_max_left _ _
          · exact le_trans (ih hmem) (le_max_right _ _)

theorem listMax_map_mono (f : ℝ → ℝ)
    (hf : ∀ x y : ℝ, 0 < x → x ≤ y → f x ≤ f y)
    (l : List ℝ) (hne : l ≠ []) (hpos : ∀ x ∈ l, 0 < x) :
    listMax (l.map f) = f (listMax l) := by
  induction l with
  | nil => exact absurd rfl hne
  | cons x xs ih =>
      cases xs with
      | nil => simp [listMax]
      | cons y ys =>
          have hpos' : ∀ z ∈ y :: ys, 0 < z := fun z hz =>
            hpos z (List.mem_cons_of_mem _ hz)
          have ihr := ih (by simp) hpos'
          have hMpos : 0 < listMax (y :: ys) :=
            hpos' _ (listMax_mem _ (by simp))
          have hxpos : 0 < x := hpos x (List.mem_cons_self _ _)
          simp only [List.map_cons] at ihr ⊢
          simp only [listMax]
          rw [ihr]
          rcases le_total x (listMax (y :: ys)) with hle | hle
          · rw [max_eq_right hle, max_eq_right (hf x _ hxpos hle)]
          · rw [max_eq_left hle, max_eq_left (hf _ _ hMpos hle)]

theorem listMax_map_mul (c : ℝ) (hc : 0 ≤ c) (l : List ℝ) :
    listMax (l.map fun x => c * x) = c * listMax l := by
  induction l with
  | nil => simp [listMax]
  | cons x xs ih =>
      cases xs with
      | nil => simp [listMax]
      | cons y ys =>
          simp only [List.map_cons] at ih ⊢
          simp only [listMax]
          rw [ih, mul_max_of_nonneg _ _ hc]

/-! ## Counting warning lines -/

theorem convLine_ne_warnMissing (orc : String → ConvOutcome)
    (m w m' : String) : convLine orc m w ≠ .warnMissing m' := by
  rw [convLine_eq]
  unfold convResultLine
  cases orc (convInPath m w) <;> simp

theorem count_warn_methodLines (fs : InputFS) (orc : String → ConvOutcome)
    (m m' : String) :
    (methodLines fs orc m').count (.warnMissing m) =
      if m' = m ∧ (fs.subdirs.lookup m').isNone = true then 1 else 0 := by
  unfold methodLines
  cases h : fs.subdirs.lookup m' with
  | none =>
      rw [List.count_singleton]
      by_cases hm : m' = m
      · simp [hm]
      · simp [hm]
  | some es =>
      rw [List.count_cons]
      rw [List.count_eq_zero.mpr ?_]
      · simp
      · intro hmem
        obtain ⟨w, _, hconv⟩ := List.mem_map.mp hmem
        exact convLine_ne_warnMissing orc m' w m hconv

theorem count_warn_flatMap_zero (fs : InputFS) (orc : String → ConvOutcome)
    (m : String) (ms : List String) (hm : m ∉ ms) :
    ((ms.flatMap (methodLines fs orc)).count (.warnMissing m)) = 0 := by
  induction ms with
  | nil => simp
  | cons m' ms ih =>
      rw [List.flatMap_cons, List.count_append, count_warn_methodLines]
      have hne : ¬ (m' = m ∧ (fs.subdirs.lookup m').isNone = true) := by
        rintro ⟨rfl, -⟩
        exact hm (List.mem_cons_self _ _)
      rw [if_neg hne, ih (fun hmem => hm (List.mem_cons_of_mem _ hmem))]

theorem count_warn_flatMap_one (fs : InputFS) (orc : String → ConvOutcome)
    (m : String) (ms : List String) (hnd : ms.Nodup) (hm : m ∈ ms)
    (habs : fs.subdirs.lookup m = none) :
    ((ms.flatMap (methodLines fs orc)).count (.warnMissing m)) = 1 := by
  induction ms with
  | nil => cases hm
  | cons m' ms ih =>
      rw [List.flatMap_cons, List.count_append, count_warn_methodLines]
      rcases List.mem_cons.mp hm with rfl | hmem
      · rw [if_pos ⟨rfl, by rw [habs]; rfl⟩,
          count_warn_flatMap_zero fs orc m ms (List.nodup_cons.mp hnd).1]
      · have hne : ¬ (m' = m ∧ (fs.subdirs.lookup m').isNone = true) := by
          rintro ⟨rfl, -⟩
          exact (List.nodup_cons.mp hnd).1 hmem
        rw [if_neg hne, ih (List.nodup_cons.mp hnd).2 hmem]

/-! ## Claims -/

/-- C1 (counterexample): the claimed default-parameter identity fails.
With the source defaults figsize=(5, 2.78) and dpi=72, the width relation
width_units × resolution = 360 holds, but the height relation fails:
2.78 × 72 = 200.16, not 200 — so the conjunction claimed by the spec
("verified by construction") is false. -/
theorem default_height_times_dpi_ne_200 :
    ¬ (figsizeDefault.1 * dpiDefault = 360 ∧
       figsizeDefault.2 * dpiDefault = 200) := by
  norm_num [figsizeDefault, dpiDefault]

/-- C1 (amended): with the default rendering parameters,
width_units × resolution = 360 exactly, while
height_units × resolution = 200.16 (= 5004/25), which is not 200 but
rounds to 200 — the 360-pixel width identity is exact, the 200-pixel
height is only approximate. -/
theorem default_figsize_dpi_products :
    figsizeDefault.1 * dpiDefault = 360 ∧
    figsizeDefault.2 * dpiDefault = 5004 / 25 ∧
    figsizeDefault.2 * dpiDefault ≠ 200 ∧
    round (figsizeDefault.2 * dpiDefault) = 200 := by
  norm_num [figsizeDefault, dpiDefault, round_eq]

/-- C2 (counterexample): a failing save step whose external direct write
stopped partway leaves a truncated file at the destination — the except
clause of create_spectrogram performs no cleanup — refuting "either a
complete image is written at output_path or no file is written there at
all". -/
theorem failed_save_leaves_truncated_file :
    (create_spectrogram "input_wsj0c3/clean/051o0211.wav"
        "spectrograms/clean/051o0211.png"
        (.failSave (some .truncated) "No space left on device")).written
      = some FileData.truncated ∧
    some FileData.truncated ≠ some FileData.complete ∧
    some FileData.truncated ≠ (none : Option FileData) :=
  ⟨rfl, by decide, by decide⟩

/-- C2 (amended): failures during decode, transform, or render occur
before anything touches the destination and leave no file there; a failure
of the save step itself leaves at the destination exactly whatever residue
the external direct write produced before raising (possibly a truncated
partial file), because the exception handler does no cleanup — atomicity
is not ensured by the code for the save step itself. -/
theorem failure_leaves_exactly_save_residue (a b m : String)
    (res : Option FileData) (fig : ℚ × ℚ) (d : ℚ) :
    (create_spectrogram a b (.failLoad m) fig d).written = none ∧
    (create_spectrogram a b (.failMel m) fig d).written = none ∧
    (create_spectrogram a b (.failDb m) fig d).written = none ∧
    (create_spectrogram a b (.failRender m) fig d).written = none ∧
    (create_spectrogram a b (.failSave res m) fig d).written = res :=
  ⟨rfl, rfl, rfl, rfl, rfl⟩

/-- C4: when the input root does not exist, main prints exactly the one
error line, creates no directory, discovers and attempts no file, and
returns normally (main is a total function; this equation is its entire
effect). -/
theorem missing_root_reports_and_does_nothing
    (fs : InputFS) (orc : String → ConvOutcome) (h : fs.rootExists = false) :
    main fs orc =
      { createdDirs := [], lines := [.errorRootMissing],
        total_files := 0, processed_files := 0, attempts := [] } := by
  unfold main
  rw [h]
  simp

/-- C4 (witness): instantiated at a filesystem whose root is absent. -/
theorem missing_root_reports_and_does_nothing_witness :
    (InputFS.mk false []).rootExists = false ∧
    main (InputFS.mk false []) (fun _ => .ok) =
      { createdDirs := [], lines := [.errorRootMissing],
        total_files := 0, processed_files := 0, attempts := [] } :=
  ⟨rfl, missing_root_reports_and_does_nothing (InputFS.mk false [])
    (fun _ => .ok) rfl⟩

/-- C9: the attempted counter is incremented unconditionally for every
discovered file, so in every run that reaches the summary footer the
footer reports N/N: processed_files always equals total_files, and the
footer line carries that equal pair — the ratio can never reveal how many
conversions failed. -/
theorem processed_always_equals_total
    (fs : InputFS) (orc : String → ConvOutcome) (h : fs.rootExists = true) :
    (main fs orc).processed_files = (main fs orc).total_files ∧
    Line.footer (main fs orc).total_files (main fs orc).total_files
      ∈ (main fs orc).lines := by
  rw [main_spec fs orc h]
  exact ⟨rfl, by simp⟩

/-- C9 (witness): instantiated at a filesystem with one method directory
holding two wav files, one of which fails to convert. -/
theorem processed_always_equals_total_witness :
    (InputFS.mk true [("clean", [.file "a.wav", .file "b.wav"])]).rootExists
        = true ∧
    ((main (InputFS.mk true [("clean", [.file "a.wav", .file "b.wav"])])
        (fun p => if p = "input_wsj0c3/clean/b.wav"
          then .failLoad "corrupt" else .ok)).processed_files =
      (main (InputFS.mk true [("clean", [.file "a.wav", .file "b.wav"])])
        (fun p => if p = "input_wsj0c3/clean/b.wav"
          then .failLoad "corrupt" else .ok)).total_files ∧
    Line.footer
      (main (InputFS.mk true [("clean", [.file "a.wav", .file "b.wav"])])
        (fun p => if p = "input_wsj0c3/clean/b.wav"
          then .failLoad "corrupt" else .ok)).total_files
      (main (InputFS.mk true [("clean", [.file "a.wav", .file "b.wav"])])
        (fun p => if p = "input_wsj0c3/clean/b.wav"
          then .failLoad "corrupt" else .ok)).total_files
      ∈ (main (InputFS.mk true [("clean", [.file "a.wav", .file "b.wav"])])
        (fun p => if p = "input_wsj0c3/clean/b.wav"
          then .failLoad "corrupt" else .ok)).lines) :=
  ⟨rfl, processed_always_equals_total _ _ rfl⟩

/-- C3: every Converter failure is caught inside create_spectrogram:
the invocation returns normally having printed exactly one diagnostic line
naming the failing file and the error message; and the Driver attempts
every discovered file of the batch whatever the per-file outcomes are —
a single bad input never aborts the run. -/
theorem converter_catches_and_batch_continues
    (fs : InputFS) (orc : String → ConvOutcome) (a b : String)
    (oc : ConvOutcome) (fig : ℚ × ℚ) (d : ℚ)
    (hoc : oc ≠ .ok) (hroot : fs.rootExists = true) :
    (create_spectrogram a b oc fig d).lines = [.convErr a oc.msg] ∧
    (main fs orc).attempts = allAttempts fs := by
  constructor
  · cases oc
    case ok => exact absurd rfl hoc
    all_goals rfl
  · rw [main_spec fs orc hroot]

/-- C3 (witness): a batch with one good and one corrupt wav file; the
corrupt file yields one error line and the whole batch is still
attempted. -/
theorem converter_catches_and_batch_continues_witness :
    (ConvOutcome.failLoad "corrupt" ≠ ConvOutcome.ok ∧
      (InputFS.mk true
        [("clean", [.file "good.wav", .file "bad.wav"])]).rootExists = true) ∧
    ((create_spectrogram "input_wsj0c3/clean/bad.wav"
        "spectrograms/clean/bad.png" (.failLoad "corrupt")
        figsizeDefault dpiDefault).lines
      = [.convErr "input_wsj0c3/clean/bad.wav"
          (ConvOutcome.failLoad "corrupt").msg] ∧
    (main (InputFS.mk true [("clean", [.file "good.wav", .file "bad.wav"])])
        (fun p => if p = "input_wsj0c3/clean/bad.wav"
          then .failLoad "corrupt" else .ok)).attempts
      = allAttempts
          (InputFS.mk true
            [("clean", [.file "good.wav", .file "bad.wav"])])) :=
  ⟨⟨by decide, rfl⟩,
    converter_catches_and_batch_continues _ _ _ _ _ _ _ (by decide) rfl⟩

/-- C6: the Driver's two running totals: total_files accumulates the
number of discovered files, processed_files increments once per file even
when the Converter fails on it (it has the same value for every outcome
oracle and equals the discovered count), and the summary footer reports
processed_files out of total_files. -/
theorem driver_accumulates_and_reports_totals
    (fs : InputFS) (orc orc' : String → ConvOutcome)
    (h : fs.rootExists = true) :
    (main fs orc).total_files = discoveredCount fs ∧
    (main fs orc).processed_files = discoveredCount fs ∧
    (main fs orc).processed_files = (main fs orc').processed_files ∧
    Line.footer (main fs orc).processed_files (main fs orc).total_files
      ∈ (main fs orc).lines := by
  rw [main_spec fs orc h, main_spec fs orc' h]
  exact ⟨rfl, rfl, rfl, by simp⟩

/-- C6 (witness): two methods with one and two files; the failing oracle
and the all-ok oracle give the same attempted count. -/
theorem driver_accumulates_and_reports_totals_witness :
    (InputFS.mk true [("clean", [.file "a.wav"]),
        ("noisy", [.file "b.wav", .file "c.wav"])]).rootExists = true ∧
    ((main (InputFS.mk true [("clean", [.file "a.wav"]),
          ("noisy", [.file "b.wav", .file "c.wav"])])
        (fun _ => .failLoad "corrupt")).total_files =
      discoveredCount (InputFS.mk true [("clean", [.file "a.wav"]),
          ("noisy", [.file "b.wav", .file "c.wav"])]) ∧
    (main (InputFS.mk true [("clean", [.file "a.wav"]),
          ("noisy", [.file "b.wav", .file "c.wav"])])
        (fun _ => .failLoad "corrupt")).processed_files =
      discoveredCount (InputFS.mk true [("clean", [.file "a.wav"]),
          ("noisy", [.file "b.wav", .file "c.wav"])]) ∧
    (main (InputFS.mk true [("clean", [.file "a.wav"]),
          ("noisy", [.file "b.wav", .file "c.wav"])])
        (fun _ => .failLoad "corrupt")).processed_files =
      (main (InputFS.mk true [("clean", [.file "a.wav"]),
          ("noisy", [.file "b.wav", .file "c.wav"])])
        (fun _ => .ok)).processed_files ∧
    Line.footer
        (main (InputFS.mk true [("clean", [.file "a.wav"]),
            ("noisy", [.file "b.wav", .file "c.wav"])])
          (fun _ => .failLoad "corrupt")).processed_files
        (main (InputFS.mk true [("clean", [.file "a.wav"]),
            ("noisy", [.file "b.wav", .file "c.wav"])])
          (fun _ => .failLoad "corrupt")).total_files
      ∈ (main (InputFS.mk true [("clean", [.file "a.wav"]),
            ("noisy", [.file "b.wav", .file "c.wav"])])
          (fun _ => .failLoad "corrupt")).lines) :=
  ⟨rfl, driver_accumulates_and_reports_totals _ _ _ rfl⟩

/-- C8: the Converter's collaborator trace: every decode call it makes
passes the audio path with sr=None (decode at native rate, no resampling),
every mel-spectrogram call uses exactly 128 mel bands and an 8000 Hz upper
bound, and the decode call is present in every invocation. -/
theorem native_rate_and_mel_params
    (a b : String) (oc : ConvOutcome) (fig : ℚ × ℚ) (d : ℚ)
    (p : String) (s : Option Nat) (n f : Nat)
    (hload : LibCall.load p s ∈ (create_spectrogram a b oc fig d).calls)
    (hmel : LibCall.melspectrogram n f
      ∈ (create_spectrogram a b oc fig d).calls) :
    p = a ∧ s = none ∧ n = 128 ∧ f = 8000 ∧
    LibCall.load a none ∈ (create_spectrogram a b oc fig d).calls := by
  cases oc <;> simp_all [create_spectrogram]

/-- C8 (witness): instantiated at a successful invocation. -/
theorem native_rate_and_mel_params_witness :
    (LibCall.load "input_wsj0c3/clean/a.wav" none
      ∈ (create_spectrogram "input_wsj0c3/clean/a.wav"
          "spectrograms/clean/a.png" .ok figsizeDefault dpiDefault).calls ∧
    LibCall.melspectrogram 128 8000
      ∈ (create_spectrogram "input_wsj0c3/clean/a.wav"
          "spectrograms/clean/a.png" .ok figsizeDefault dpiDefault).calls) ∧
    ("input_wsj0c3/clean/a.wav" = "input_wsj0c3/clean/a.wav" ∧
      (none : Option Nat) = none ∧ 128 = 128 ∧ 8000 = 8000 ∧
      LibCall.load "input_wsj0c3/clean/a.wav" none
        ∈ (create_spectrogram "input_wsj0c3/clean/a.wav"
            "spectrograms/clean/a.png" .ok figsizeDefault dpiDefault).calls) :=
  ⟨⟨List.mem_cons_self _ _, List.mem_cons_of_mem _ (List.mem_cons_self _ _)⟩,
    native_rate_and_mel_params _ _ _ _ _ _ _ _ _
      (List.mem_cons_self _ _)
      (List.mem_cons_of_mem _ (List.mem_cons_self _ _))⟩

/-- C7: the Driver's method list is exactly the eight fixed names in
source order; a listed method whose input subdirectory is absent produces
exactly one warning line, discovers no files and is never attempted; and
every attempted (method, file) pair belongs to a listed method — unlisted
subdirectories are never processed. -/
theorem fixed_methods_missing_skipped_unlisted_ignored
    (fs : InputFS) (orc : String → ConvOutcome) (m : String)
    (mw : String × String)
    (hroot : fs.rootExists = true) (hm : m ∈ methods)
    (habs : fs.subdirs.lookup m = none)
    (hmw : mw ∈ (main fs orc).attempts) :
    methods = ["clean", "noisy", "sgmsep", "vpidm", "flowse",
      "vpvid_sde", "vpvid_sdec", "vpvid_ode"] ∧
    (main fs orc).lines.count (.warnMissing m) = 1 ∧
    methodWavs fs m = [] ∧
    (∀ w, (m, w) ∉ (main fs orc).attempts) ∧
    mw.1 ∈ methods := by
  have hspec := main_spec fs orc hroot
  refine ⟨rfl, ?_, ?_, ?_, ?_⟩
  · rw [hspec]
    show (([Line.generating, Line.outputSize 360 200, Line.dashes] ++
        methods.flatMap (methodLines fs orc)) ++
        [Line.dashes, Line.processingComplete,
         Line.footer (discoveredCount fs) (discoveredCount fs),
         Line.savedIn output_dir]).count (Line.warnMissing m) = 1
    rw [List.count_append, List.count_append,
      count_warn_flatMap_one fs orc m methods (by decide) hm habs,
      List.count_eq_zero.mpr (by simp), List.count_eq_zero.mpr (by simp)]
  · unfold methodWavs
    rw [habs]
  · intro w hw
    rw [hspec] at hw
    unfold allAttempts at hw
    obtain ⟨m', hm', hmem⟩ := List.mem_flatMap.mp hw
    obtain ⟨w', hw', heq⟩ := List.mem_map.mp hmem
    have h1 : m' = m := congrArg Prod.fst heq
    subst h1
    unfold methodWavs at hw'
    rw [habs] at hw'
    cases hw'
  · rw [hspec] at hmw
    unfold allAttempts at hmw
    obtain ⟨m', hm', hmem⟩ := List.mem_flatMap.mp hmw
    obtain ⟨w', hw', heq⟩ := List.mem_map.mp hmem
    have h1 : m' = mw.1 := congrArg Prod.fst heq
    rw [← h1]
    exact hm'

/-- C7 (witness): a root holding only a clean directory with one file:
the absent sgmsep method gets exactly one warning and no attempts, and the
one attempted pair belongs to a listed method. -/
theorem fixed_methods_missing_skipped_unlisted_ignored_witness :
    ((InputFS.mk true [("clean", [.file "a.wav"])]).rootExists = true ∧
      "sgmsep" ∈ methods ∧
      (InputFS.mk true [("clean", [.file "a.wav"])]).subdirs.lookup "sgmsep"
        = none ∧
      ("clean", "a.wav") ∈
        (main (InputFS.mk true [("clean", [.file "a.wav"])])
          (fun _ => .ok)).attempts) ∧
    (methods = ["clean", "noisy", "sgmsep", "vpidm", "flowse",
        "vpvid_sde", "vpvid_sdec", "vpvid_ode"] ∧
      (main (InputFS.mk true [("clean", [.file "a.wav"])])
        (fun _ => .ok)).lines.count (.warnMissing "sgmsep") = 1 ∧
      methodWavs (InputFS.mk true [("clean", [.file "a.wav"])]) "sgmsep"
        = [] ∧
      (∀ w, ("sgmsep", w) ∉
        (main (InputFS.mk true [("clean", [.file "a.wav"])])
          (fun _ => .ok)).attempts) ∧
      ("clean", "a.wav").1 ∈ methods) :=
  ⟨⟨rfl, by decide, rfl, by decide⟩,
    fixed_methods_missing_skipped_unlisted_ignored _ _ _ _
      rfl (by decide) rfl (by decide)⟩

/-- C10: file discovery is non-recursive and matches the literal
lowercase pattern: every file the Driver ever attempts is a direct entry
of its method's input subdirectory whose name ends with the
case-sensitive suffix ".wav"; files inside nested subdirectories and
files with a differently-cased extension are never attempted. -/
theorem discovery_toplevel_lowercase_wav_only
    (fs : InputFS) (orc : String → ConvOutcome) (m w : String)
    (h : (m, w) ∈ (main fs orc).attempts) :
    matchesWavGlob w = true ∧
    ∃ es, fs.subdirs.lookup m = some es ∧ ∃ e ∈ es, FNode.name e = w := by
  have h' : (m, w) ∈ allAttempts fs := by
    cases hroot : fs.rootExists with
    | false =>
        unfold main at h
        rw [hroot] at h
        simp at h
    | true =>
        rw [main_spec fs orc hroot] at h
        exact h
  unfold allAttempts at h'
  obtain ⟨m', hm', hmem⟩ := List.mem_flatMap.mp h'
  obtain ⟨w', hw', heq⟩ := List.mem_map.mp hmem
  have h1 : m' = m := congrArg Prod.fst heq
  have h2 : w' = w := congrArg Prod.snd heq
  subst h1
  subst h2
  unfold methodWavs at hw'
  cases hlk : fs.subdirs.lookup m' with
  | none =>
      rw [hlk] at hw'
      cases hw'
  | some es =>
      rw [hlk] at hw'
      unfold globWav at hw'
      obtain ⟨e, he, hsome⟩ := List.mem_filterMap.mp hw'
      by_cases hmatch : matchesWavGlob e.name = true
      · rw [if_pos hmatch] at hsome
        obtain rfl : e.name = w' := Option.some.inj hsome
        exact ⟨hmatch, es, rfl, e, he, rfl⟩
      · rw [if_neg hmatch] at hsome
        cases hsome

/-- C10 (witness): a clean directory holding a matching file, an
uppercase-extension file and a nested subdirectory: the attempted file is
a direct entry with the lowercase extension. -/
theorem discovery_toplevel_lowercase_wav_only_witness :
    ("clean", "a.wav") ∈
      (main (InputFS.mk true [("clean",
          [.file "a.wav", .file "b.WAV", .dir "nested" [.file "c.wav"]])])
        (fun _ => ConvOutcome.ok)).attempts ∧
    (matchesWavGlob "a.wav" = true ∧
      ∃ es, (InputFS.mk true [("clean",
          [.file "a.wav", .file "b.WAV",
            .dir "nested" [.file "c.wav"]])]).subdirs.lookup "clean"
          = some es ∧
        ∃ e ∈ es, FNode.name e = "a.wav") :=
  ⟨by decide,
    discovery_toplevel_lowercase_wav_only
      (InputFS.mk true [("clean",
        [.file "a.wav", .file "b.WAV", .dir "nested" [.file "c.wav"]])])
      (fun _ => ConvOutcome.ok) "clean" "a.wav" (by decide)⟩

/-- C5: the decibel conversion is referenced to the matrix's own maximum:
for every nonempty, strictly positive power matrix the maximum entry of
the decibel-converted matrix is 0, and scaling the matrix entrywise by any
positive factor c (scaling the waveform by k scales the quadratically
homogeneous power matrix by c = k²) yields the identical decibel matrix —
the reference is per-file and scale-invariant, not absolute. -/
theorem db_max_zero_and_scale_invariance
    (S : List (List ℝ)) (c : ℝ)
    (hne : S.flatten ≠ []) (hpos : ∀ x ∈ S.flatten, 0 < x) (hc : 0 < c) :
    listMax (power_to_db S).flatten = 0 ∧
    power_to_db (scaleMatrix c S) = power_to_db S := by
  have hMpos : 0 < matMax S := hpos _ (listMax_mem _ hne)
  have hmono : ∀ x y : ℝ, 0 < x → x ≤ y →
      dbFun (matMax S) x ≤ dbFun (matMax S) y := by
    intro x y hx hxy
    unfold dbFun
    have hlog := Real.logb_le_logb_of_le (by norm_num : (1:ℝ) < 10) hx hxy
    linarith
  constructor
  · have hflat : (power_to_db S).flatten
        = S.flatten.map (dbFun (matMax S)) := by
      unfold power_to_db
      rw [← List.map_flatten]
    rw [hflat, listMax_map_mono _ hmono _ hne hpos]
    unfold dbFun matMax
    exact sub_self _
  · have hMscale : matMax (scaleMatrix c S) = c * matMax S := by
      unfold matMax scaleMatrix
      rw [← List.map_flatten, listMax_map_mul c hc.le]
    unfold power_to_db
    rw [hMscale]
    unfold scaleMatrix
    rw [List.map_map]
    apply List.map_congr_left
    intro row hrow
    simp only [Function.comp]
    rw [List.map_map]
    apply List.map_congr_left
    intro x hx
    have hxpos : 0 < x := hpos x (List.mem_flatten.mpr ⟨row, hrow, hx⟩)
    simp only [Function.comp]
    unfold dbFun
    rw [Real.logb_mul hc.ne' hxpos.ne', Real.logb_mul hc.ne' hMpos.ne']
    ring

/-- C5 (witness): instantiated at the matrix [[1, 1/2]] and the scale
factor 2. -/
theorem db_max_zero_and_scale_invariance_witness :
    (([[(1:ℝ), 1/2]] : List (List ℝ)).flatten ≠ [] ∧
      (∀ x ∈ ([[(1:ℝ), 1/2]] : List (List ℝ)).flatten, 0 < x) ∧
      (0:ℝ) < 2) ∧
    (listMax (power_to_db [[(1:ℝ), 1/2]]).flatten = 0 ∧
      power_to_db (scaleMatrix 2 [[(1:ℝ), 1/2]])
        = power_to_db [[(1:ℝ), 1/2]]) :=
  ⟨⟨by simp,
    by
      intro x hx
      simp at hx
      rcases hx with rfl | rfl <;> norm_num,
    by norm_num⟩,
    db_max_zero_and_scale_invariance _ _ (by simp)
      (by
        intro x hx
        simp at hx
        rcases hx with rfl | rfl <;> norm_num)
      (by norm_num)⟩

end SpectroGen
